import Mathlib

/-!
Verification of the hybrid garage-booking dialogue core: a shallow embedding of
`utils/booking_state_machine.py`, `utils/llm_parser.py` and `utils/hybrid_handler.py`.

Python strings are modelled as `List Char` (`String` at API boundaries), Python/JSON
values as the inductive `JVal` (Python `None` is `Option.none` at field positions and
`JVal.null` inside decoded JSON), raised exceptions as `Except String`, and the two
external collaborators — the text-generation callable and the standard-library JSON
decoder `json.loads` — as function parameters.  Binary floating point is approximated
by exact decimal arithmetic (sign, digits, power-of-ten scale), which agrees with
CPython on every decimal-literal string whose value is exactly representable.
-/

/-! ## Python string primitives -/

/-- Whitespace characters recognised by Python `str.strip` / `str.split` (ASCII). -/
def isSpaceC (c : Char) : Bool :=
  c == ' ' || c == '\t' || c == '\n' || c == '\x0d' || c == '\x0b' || c == '\x0c'

/-- Python `str.lower` (ASCII). -/
def pyLower (s : List Char) : List Char := s.map Char.toLower

/-- Python `str.upper` (ASCII). -/
def pyUpper (s : List Char) : List Char := s.map Char.toUpper

/-- Python `str.strip()` with no argument: remove leading and trailing whitespace. -/
def pyStrip (s : List Char) : List Char :=
  ((s.dropWhile isSpaceC).reverse.dropWhile isSpaceC).reverse

/-- Python `str.strip(chars)`: remove leading and trailing characters from `cs`. -/
def pyStripSet (cs : List Char) (s : List Char) : List Char :=
  ((s.dropWhile (fun c => cs.contains c)).reverse.dropWhile (fun c => cs.contains c)).reverse

/-- Does `pat` occur at the head of `s`?  (Python `str.startswith`.) -/
def listStarts : List Char → List Char → Bool
  | [], _ => true
  | _ :: _, [] => false
  | p :: ps, c :: cs => p == c && listStarts ps cs

/-- Index of the first occurrence of `pat` in `s`, if any. -/
def findSub (pat : List Char) : List Char → Option Nat
  | [] => if listStarts pat [] then some 0 else none
  | c :: cs =>
    if listStarts pat (c :: cs) then some 0
    else (findSub pat cs).map (fun n => n + 1)

/-- Python `pat in s` substring test. -/
def containsSub (pat : List Char) (s : List Char) : Bool := (findSub pat s).isSome

/-- Python `str.find`: index of first occurrence, `-1` when absent. -/
def pyFind (s : List Char) (pat : List Char) : Int :=
  match findSub pat s with
  | some i => (i : Int)
  | none => -1

/-- Python `str.find(pat, start)`. -/
def pyFindFrom (s : List Char) (pat : List Char) (start : Nat) : Int :=
  match findSub pat (s.drop start) with
  | some i => ((i + start : Nat) : Int)
  | none => -1

/-- Python `str.rfind`: index of the last occurrence, `-1` when absent. -/
def pyRfind (s pat : List Char) : Int :=
  match ((List.range (s.length + 1)).filter (fun i => listStarts pat (s.drop i))).getLast? with
  | some i => (i : Int)
  | none => -1

/-- Python slice `s[a:b]` where `b` may be negative (counted from the end). -/
def pySliceIE (s : List Char) (a : Nat) (b : Int) : List Char :=
  let bn : Nat := if b < 0 then ((s.length : Int) + b).toNat else b.toNat
  (s.take bn).drop a

/-- Fuel-indexed worker for `pyReplace`; the fuel is an upper bound on the scan length. -/
def pyReplaceGo (pat rep : List Char) : Nat → List Char → List Char
  | 0, s => s
  | _ + 1, [] => []
  | fuel + 1, c :: cs =>
    if !pat.isEmpty && listStarts pat (c :: cs) then
      rep ++ pyReplaceGo pat rep fuel ((c :: cs).drop pat.length)
    else
      c :: pyReplaceGo pat rep fuel cs

/-- Python `str.replace`: replace every non-overlapping occurrence, left to right. -/
def pyReplace (s pat rep : List Char) : List Char := pyReplaceGo pat rep s.length s

/-- Worker for `pySplit`; `acc` is the current word, reversed. -/
def pySplitGo : List Char → List Char → List (List Char)
  | [], acc => if acc.isEmpty then [] else [acc.reverse]
  | c :: cs, acc =>
    if isSpaceC c then
      if acc.isEmpty then pySplitGo cs [] else acc.reverse :: pySplitGo cs []
    else pySplitGo cs (c :: acc)

/-- Python `str.split()` with no argument: split on whitespace runs, dropping empties. -/
def pySplit (s : List Char) : List (List Char) := pySplitGo s []

/-- Worker for `pyTitle`; the flag records whether the previous character was cased. -/
def pyTitleGo : Bool → List Char → List Char
  | _, [] => []
  | prevCased, c :: cs =>
    if c.isAlpha then
      (if prevCased then c.toLower else c.toUpper) :: pyTitleGo true cs
    else c :: pyTitleGo false cs

/-- Python `str.title` (ASCII): uppercase each letter that follows a non-letter. -/
def pyTitle (s : List Char) : List Char := pyTitleGo false s

/-! ## Exact model of Python `float(string)` and `int(float)` on decimal literals -/

/-- Numeric value of a list of decimal digits. -/
def digitsVal (ds : List Char) : Nat := ds.foldl (fun a c => a * 10 + (c.toNat - 48)) 0

/-- A parsed decimal literal: value `sgn * num / 10 ^ scale`. -/
structure PyFloat where
  sgn : Int
  num : Nat
  scale : Nat

/-- Exponent suffix of a float literal (`e5`, `E-3`, ...). -/
def pyFloatExp (sg : Int) (num0 sc0 : Nat) (r : List Char) : Option PyFloat :=
  let p :=
    match r with
    | '-' :: r1 => (false, r1)
    | '+' :: r1 => (true, r1)
    | r1 => (true, r1)
  let ed := p.2.takeWhile Char.isDigit
  if ed.isEmpty || !(p.2.dropWhile Char.isDigit).isEmpty then none
  else if p.1 then some ⟨sg, num0 * 10 ^ digitsVal ed, sc0⟩
  else some ⟨sg, num0, sc0 + digitsVal ed⟩

/-- Python `float(s)` restricted to finite decimal literals (no `inf`/`nan`). -/
def pyFloatParse (s : List Char) : Option PyFloat :=
  let t := pyStrip s
  let p :=
    match t with
    | '-' :: r => ((-1 : Int), r)
    | '+' :: r => ((1 : Int), r)
    | r => ((1 : Int), r)
  let d1 := p.2.takeWhile Char.isDigit
  let t2 := p.2.dropWhile Char.isDigit
  let q :=
    match t2 with
    | '.' :: r => (r.takeWhile Char.isDigit, r.dropWhile Char.isDigit)
    | r => (([] : List Char), r)
  if d1.isEmpty && q.1.isEmpty then none
  else
    let num0 := digitsVal (d1 ++ q.1)
    let sc0 := q.1.length
    match q.2 with
    | [] => some ⟨p.1, num0, sc0⟩
    | 'e' :: r => pyFloatExp p.1 num0 sc0 r
    | 'E' :: r => pyFloatExp p.1 num0 sc0 r
    | _ => none

/-- Python `int(f)`: truncation toward zero. -/
def pyFloatTrunc (f : PyFloat) : Int := f.sgn * ((f.num / 10 ^ f.scale : Nat) : Int)

/-- Python `int(f * 1000)` for exact decimal `f`. -/
def pyFloatTruncMul1000 (f : PyFloat) : Int :=
  f.sgn * ((f.num * 1000 / 10 ^ f.scale : Nat) : Int)

/-! ## Python / JSON values -/

/-- A JSON value as returned by `json.loads` (numbers restricted to integers). -/
inductive JVal where
  | null
  | bool (b : Bool)
  | int (n : Int)
  | str (s : String)
  | arr (xs : List JVal)
  | obj (kvs : List (String × JVal))

/-- Is this value JSON `null` (Python `None`)? -/
def JVal.isNull : JVal → Bool
  | JVal.null => true
  | _ => false

/-- Python truthiness of a JSON value. -/
def pyTruthy : JVal → Bool
  | JVal.null => false
  | JVal.bool b => b
  | JVal.int n => decide (n ≠ 0)
  | JVal.str s => !s.isEmpty
  | JVal.arr xs => !xs.isEmpty
  | JVal.obj kvs => !kvs.isEmpty

/-- Python truthiness of a nullable field (`None` is falsy). -/
def pyTruthyOpt : Option JVal → Bool
  | none => false
  | some v => pyTruthy v

/-! ## BookingState and the deterministic dialogue engine
(`utils/booking_state_machine.py`) -/

/-- The `BookingState` dataclass: six nullable fields, all `None` initially. -/
structure BookingState where
  name : Option JVal
  car_reg : Option JVal
  car_model : Option JVal
  mileage : Option JVal
  warranty : Option JVal
  issue : Option JVal

/-- `BookingState()`: the empty state a session starts from. -/
def emptyBooking : BookingState := ⟨none, none, none, none, none, none⟩

/-- The `BookingField` enum, in declaration order. -/
inductive BookingField where
  | name
  | car_reg
  | car_model
  | mileage
  | warranty
  | issue
deriving DecidableEq

/-- Iteration order of the `BookingField` enum. -/
def fieldList : List BookingField :=
  [BookingField.name, BookingField.car_reg, BookingField.car_model,
   BookingField.mileage, BookingField.warranty, BookingField.issue]

/-- The `.value` string of each enum member. -/
def fieldName : BookingField → String
  | BookingField.name => "name"
  | BookingField.car_reg => "car_reg"
  | BookingField.car_model => "car_model"
  | BookingField.mileage => "mileage"
  | BookingField.warranty => "warranty"
  | BookingField.issue => "issue"

/-- The `field_map` built inside `get_missing_fields`. -/
def fieldVal (s : BookingState) : BookingField → Option JVal
  | BookingField.name => s.name
  | BookingField.car_reg => s.car_reg
  | BookingField.car_model => s.car_model
  | BookingField.mileage => s.mileage
  | BookingField.warranty => s.warranty
  | BookingField.issue => s.issue

/-- `BookingState.is_complete`: truthiness for the four string fields,
`is not None` for mileage and warranty — exactly as in the source. -/
def is_complete (s : BookingState) : Bool :=
  pyTruthyOpt s.name && pyTruthyOpt s.car_reg && pyTruthyOpt s.car_model &&
    s.mileage.isSome && s.warranty.isSome && pyTruthyOpt s.issue

/-- `BookingState.get_missing_fields`: the fields whose value `is None`,
collected in enum iteration order. -/
def get_missing_fields (s : BookingState) : List BookingField :=
  fieldList.filter (fun f => (fieldVal s f).isNone)

/-- The pre-written `QUESTIONS` table. -/
def QUESTIONS : BookingField → String
  | BookingField.name => "What's your full name?"
  | BookingField.car_reg => "What's your car registration number?"
  | BookingField.car_model => "What's the make and model of your car?"
  | BookingField.mileage => "What's the current mileage on your vehicle?"
  | BookingField.warranty => "Is your car currently under warranty or a service contract?"
  | BookingField.issue => "What service or issue can we help you with today?"

/-- `COMPLETION_MESSAGE`. -/
def COMPLETION_MESSAGE : String :=
  "Perfect! I have all your details. Let me check our available dates for you."

/-- `GREETING_MESSAGE` (also hard-coded inline in `HybridBookingHandler.get_greeting`). -/
def GREETING_MESSAGE : String :=
  "Hi! I'm here to help you book a garage appointment. What's your full name?"

/-- `DialogueEngine.get_next_question`: `None` when complete, else the canned
question for the first missing field. -/
def get_next_question (s : BookingState) : Option String :=
  if is_complete s then none
  else
    match get_missing_fields s with
    | [] => none
    | f :: _ => some (QUESTIONS f)

/-! ## Field normalizers (`DialogueEngine._normalize_*`) -/

/-- `_normalize_car_reg`: remove spaces, uppercase; raises `AttributeError`
on a non-string argument. -/
def normalize_car_reg (v : JVal) : Except String JVal :=
  match v with
  | JVal.str s => Except.ok (JVal.str (String.mk (pyUpper (pyReplace s.toList [' '] []))))
  | _ => Except.error "AttributeError"

/-- `_normalize_mileage`: integers pass through (`bool` is an `int` subclass in
Python); strings are lowered, have `"miles"` and `","` removed and are stripped;
a residue containing `k` is parsed with the `k`s removed and multiplied by 1000;
otherwise the residue is parsed as a float and truncated.  A non-numeric residue
raises `ValueError`; any other type raises `TypeError` in `int(...)`. -/
def normalize_mileage (v : JVal) : Except String JVal :=
  match v with
  | JVal.int n => Except.ok (JVal.int n)
  | JVal.bool b => Except.ok (JVal.bool b)
  | JVal.str s =>
    let m := pyStrip (pyReplace (pyReplace (pyLower s.toList) "miles".toList []) [','] [])
    if containsSub ['k'] m then
      match pyFloatParse (pyReplace m ['k'] []) with
      | some f => Except.ok (JVal.int (pyFloatTruncMul1000 f))
      | none => Except.error "ValueError"
    else
      match pyFloatParse m with
      | some f => Except.ok (JVal.int (pyFloatTrunc f))
      | none => Except.error "ValueError"
  | _ => Except.error "TypeError"

/-- Affirmative allow-list of `_normalize_warranty`. -/
def warrantyYes : List String := ["yes", "y", "true", "under warranty", "active"]

/-- Negative allow-list of `_normalize_warranty`. -/
def warrantyNo : List String := ["no", "n", "false", "not under warranty", "expired"]

/-- `_normalize_warranty`: booleans pass through; lowered strings are matched
against the two allow-lists; everything else falls back to `bool(...)` truthiness. -/
def normalize_warranty (v : JVal) : Bool :=
  match v with
  | JVal.bool b => b
  | JVal.str s =>
    let wl := String.mk (pyLower s.toList)
    if warrantyYes.contains wl then true
    else if warrantyNo.contains wl then false
    else pyTruthy (JVal.str s)
  | v => pyTruthy v

/-! ## `DialogueEngine.update_state` -/

/-- A decoded JSON object, as handed to `update_state`. -/
abbrev ParsedData := List (String × JVal)

/-- Python `dict.get(k)` on a decoded JSON object; a stored JSON `null` is the
Python value `None`, indistinguishable from an absent key. -/
def pdGet (pd : ParsedData) (k : String) : Option JVal :=
  match pd.find? (fun p => p.1 == k) with
  | some p => if p.2.isNull then none else some p.2
  | none => none

/-- The metadata dict returned by `update_state`. -/
structure UpdateMeta where
  updated_fields : List String
  num_updates : Nat
  is_complete : Bool

/-- The `if parsed_data.get("name"):` block of `update_state`. -/
def step_name (pd : ParsedData) (su : BookingState × List String) :
    BookingState × List String :=
  match pdGet pd "name" with
  | some v => if pyTruthy v then ({su.1 with name := some v}, su.2 ++ ["name"]) else su
  | none => su

/-- The `if parsed_data.get("car_reg"):` block of `update_state`. -/
def step_car_reg (pd : ParsedData) (su : BookingState × List String) :
    Except String (BookingState × List String) :=
  match pdGet pd "car_reg" with
  | some v =>
    if pyTruthy v then
      match normalize_car_reg v with
      | Except.ok r => Except.ok ({su.1 with car_reg := some r}, su.2 ++ ["car_reg"])
      | Except.error e => Except.error e
    else Except.ok su
  | none => Except.ok su

/-- The `if parsed_data.get("car_model"):` block of `update_state`. -/
def step_car_model (pd : ParsedData) (su : BookingState × List String) :
    BookingState × List String :=
  match pdGet pd "car_model" with
  | some v =>
    if pyTruthy v then ({su.1 with car_model := some v}, su.2 ++ ["car_model"]) else su
  | none => su

/-- The `if parsed_data.get("mileage") is not None:` block of `update_state`. -/
def step_mileage (pd : ParsedData) (su : BookingState × List String) :
    Except String (BookingState × List String) :=
  match pdGet pd "mileage" with
  | some v =>
    match normalize_mileage v with
    | Except.ok r => Except.ok ({su.1 with mileage := some r}, su.2 ++ ["mileage"])
    | Except.error e => Except.error e
  | none => Except.ok su

/-- The `if parsed_data.get("warranty") is not None:` block of `update_state`. -/
def step_warranty (pd : ParsedData) (su : BookingState × List String) :
    BookingState × List String :=
  match pdGet pd "warranty" with
  | some v =>
    ({su.1 with warranty := some (JVal.bool (normalize_warranty v))}, su.2 ++ ["warranty"])
  | none => su

/-- The `if parsed_data.get("issue"):` block of `update_state`. -/
def step_issue (pd : ParsedData) (su : BookingState × List String) :
    BookingState × List String :=
  match pdGet pd "issue" with
  | some v => if pyTruthy v then ({su.1 with issue := some v}, su.2 ++ ["issue"]) else su
  | none => su

/-- `DialogueEngine.update_state`: the six field blocks in source order; a
normalization error aborts the call (there is no try/except around it). -/
def update_state (st : BookingState) (pd : ParsedData) :
    Except String (BookingState × UpdateMeta) :=
  let su1 := step_name pd (st, [])
  match step_car_reg pd su1 with
  | Except.error e => Except.error e
  | Except.ok su2 =>
    let su3 := step_car_model pd su2
    match step_mileage pd su3 with
    | Except.error e => Except.error e
    | Except.ok su4 =>
      let su5 := step_issue pd (step_warranty pd su4)
      Except.ok (su5.1, ⟨su5.2, su5.2.length, is_complete su5.1⟩)

/-- The response-metadata dict produced by `get_next_response`. -/
structure RespMeta where
  rtype : String
  text : Option String
  use_prerecorded : Bool
  filename : Option String

/-- `DialogueEngine.get_next_response`: completion / canned question /
LLM-fallback three-way decision.  The `get_missing_fields()[0]` subscript in the
question branch would raise `IndexError` on an empty list (unreachable, since a
question only exists when a field is missing). -/
def get_next_response (st : BookingState) (parse_success : Bool) :
    Except String RespMeta :=
  if is_complete st then
    Except.ok ⟨"completion", some COMPLETION_MESSAGE, true, some "completion.wav"⟩
  else if parse_success then
    match get_next_question st with
    | some q =>
      match get_missing_fields st with
      | f :: _ => Except.ok ⟨"question", some q, true, some (fieldName f ++ ".wav")⟩
      | [] => Except.error "IndexError"
    | none => Except.ok ⟨"fallback_llm", none, false, none⟩
  else Except.ok ⟨"fallback_llm", none, false, none⟩

/-! ## JSON dumping (used only to build prompts, via `json.dumps`) -/

/-- Minimal JSON string escaping (backslash and quote). -/
def escapeJson (s : String) : String :=
  String.mk (pyReplace (pyReplace s.toList ['\\'] ['\\', '\\']) ['"'] ['\\', '"'])

mutual
/-- `json.dumps` of a single value (default separators). -/
def jvalDump : JVal → String
  | JVal.null => "null"
  | JVal.bool b => if b then "true" else "false"
  | JVal.int n => toString n
  | JVal.str s => "\"" ++ escapeJson s ++ "\""
  | JVal.arr xs => "[" ++ jvalDumpList xs ++ "]"
  | JVal.obj kvs => "\x7b" ++ jvalDumpKVs kvs ++ "\x7d"
/-- Comma-joined dump of an array body. -/
def jvalDumpList : List JVal → String
  | [] => ""
  | [x] => jvalDump x
  | x :: y :: rest => jvalDump x ++ ", " ++ jvalDumpList (y :: rest)
/-- Comma-joined dump of an object body. -/
def jvalDumpKVs : List (String × JVal) → String
  | [] => ""
  | [(k, v)] => "\"" ++ escapeJson k ++ "\": " ++ jvalDump v
  | (k, v) :: p :: rest =>
    "\"" ++ escapeJson k ++ "\": " ++ jvalDump v ++ ", " ++ jvalDumpKVs (p :: rest)
end

/-- Dump of one nullable state field. -/
def dumpOpt : Option JVal → String
  | none => "null"
  | some v => jvalDump v

/-- `json.dumps(state.to_dict())`: the six fields in dataclass order. -/
def jsonDumpsStateDict (st : BookingState) : String :=
  "\x7b\"name\": " ++ dumpOpt st.name ++ ", \"car_reg\": " ++ dumpOpt st.car_reg ++
    ", \"car_model\": " ++ dumpOpt st.car_model ++ ", \"mileage\": " ++ dumpOpt st.mileage ++
    ", \"warranty\": " ++ dumpOpt st.warranty ++ ", \"issue\": " ++ dumpOpt st.issue ++ "\x7d"

/-- `json.dumps(state.to_dict(), indent=2)` for the flat state dict. -/
def jsonDumpsStateIndent (st : BookingState) : String :=
  "\x7b\n  \"name\": " ++ dumpOpt st.name ++ ",\n  \"car_reg\": " ++ dumpOpt st.car_reg ++
    ",\n  \"car_model\": " ++ dumpOpt st.car_model ++ ",\n  \"mileage\": " ++
    dumpOpt st.mileage ++ ",\n  \"warranty\": " ++ dumpOpt st.warranty ++
    ",\n  \"issue\": " ++ dumpOpt st.issue ++ "\n\x7d"

/-! ## `utils/llm_parser.py` -/

/-- `build_parser_prompt`: optional last-bot-message context plus the minimal
extraction instruction (falsy context, i.e. `None` or `""`, is omitted). -/
def build_parser_prompt (st : BookingState) (last_bot_message : Option String) : String :=
  let context :=
    match last_bot_message with
    | some m => if m.isEmpty then "" else "Bot asked: \"" ++ m ++ "\"\n"
    | none => ""
  context ++ "State: " ++ jsonDumpsStateDict st ++
    "\nExtract NEW info only. Return JSON: \x7b\"name\",\"car_reg\",\"car_model\"," ++
    "\"mileage\"(int),\"warranty\"(bool),\"issue\"\x7d null if absent."

/-- `build_fallback_prompt`: the conversational prompt embedding current state
and the ordered missing fields. -/
def build_fallback_prompt (user_message : String) (st : BookingState)
    (missing : List BookingField) : String :=
  let missingStr := String.intercalate ", " (missing.map fieldName)
  "You are a helpful garage booking assistant.\n\nCurrent booking state:\n" ++
    jsonDumpsStateIndent st ++ "\n\nMissing information: " ++ missingStr ++
    "\n\nUser said: \"" ++ user_message ++ "\"\n\n" ++
    "Respond naturally and helpfully. If they're chatting or asking questions, " ++
    "answer briefly. \nThen guide them back to providing the next missing piece " ++
    "of information.\n\nKeep response under 2 sentences. Be warm but efficient."

/-- The type of `json.loads`, an external standard-library collaborator: either a
decoded value or a `JSONDecodeError`. -/
abbrev JsonLoads := String → Except Unit JVal

/-- `parse_llm_json_response`: direct parse, then markdown-fence extraction, then
first-`CURLY`-to-last-`CURLY` extraction, else `None`.  Only the first attempt has its
decode error caught; a decode error in the extraction branches propagates (and is
caught further up, in `_try_parser`). -/
def parse_llm_json_response (jl : JsonLoads) (llm_output : String) :
    Except Unit (Option JVal) :=
  let s := llm_output.toList
  match jl (String.mk (pyStrip s)) with
  | Except.ok v => Except.ok (some v)
  | Except.error _ =>
    if containsSub "```json".toList s then
      let start := (pyFind s "```json".toList + 7).toNat
      let stop := pyFindFrom s "```".toList start
      match jl (String.mk (pyStrip (pySliceIE s start stop))) with
      | Except.ok v => Except.ok (some v)
      | Except.error e => Except.error e
    else if containsSub "```".toList s then
      let start := (pyFind s "```".toList + 3).toNat
      let stop := pyFindFrom s "```".toList start
      match jl (String.mk (pyStrip (pySliceIE s start stop))) with
      | Except.ok v => Except.ok (some v)
      | Except.error e => Except.error e
    else
      let start := pyFind s [Char.ofNat 123]
      let stop := pyRfind s [Char.ofNat 125] + 1
      if start != -1 && stop > start then
        match jl (String.mk (pySliceIE s start.toNat stop)) with
        | Except.ok v => Except.ok (some v)
        | Except.error e => Except.error e
      else Except.ok none

/-- `validate_parsed_data`: a dict with at least one non-null value. -/
def validate_parsed_data (v : JVal) : Bool :=
  match v with
  | JVal.obj kvs => decide (0 < (kvs.filter (fun p => !p.2.isNull)).length)
  | _ => false

/-- The fixed greeting-opener list of `is_greeting`. -/
def greetingsList : List String :=
  ["hello", "hi", "hey", "good morning", "good afternoon",
   "good evening", "howdy", "what's up", "how are you"]

/-- The booking-info indicator substrings of `is_greeting`. -/
def infoIndicators : List String :=
  ["i'm ", "my name", "name is", "registration",
   "miles", "warranty", "oil", "brake", "service"]

/-- `is_greeting`: lowered and stripped message starts with a greeting opener,
has fewer than 8 words, and contains no booking-info indicator. -/
def is_greeting (user_message : String) : Bool :=
  let msg := pyStrip (pyLower user_message.toList)
  if greetingsList.any (fun g => listStarts g.toList msg) &&
      decide ((pySplit msg).length < 8) then
    !(infoIndicators.any (fun i => containsSub i.toList msg))
  else false

/-- The question-opener list of `should_use_parser`. -/
def questionStarters : List String :=
  ["what ", "when ", "where ", "how ", "why ", "can you ", "could you ", "will you "]

/-- `should_use_parser`: skip the parser for greetings, genuine questions and
messages longer than 30 words. -/
def shouldUseParser (user_message : String) : Bool :=
  let msg := pyStrip (pyLower user_message.toList)
  if is_greeting (String.mk msg) then false
  else if questionStarters.any (fun q => listStarts q.toList msg) then false
  else if decide (30 < (pySplit msg).length) then false
  else true

/-! ## `utils/hybrid_handler.py` — the Hybrid Orchestrator -/

/-- The argument record of the external synchronous text-generation callable. -/
structure LLMArgs where
  user_message : String
  system_message : String
  max_tokens : Nat

/-- The external text-generation callable: returns text or raises. -/
abbrev LLMFn := LLMArgs → Except String String

/-- One conversation-history entry: role and (nullable) content. -/
abbrev HistEntry := String × Option String

/-- Handler-owned per-session state: the dialogue engine's `BookingState` plus
the conversation history. -/
structure Handler where
  state : BookingState
  history : List HistEntry

/-- The result dict of `_try_parser` (the latency number is not modelled). -/
structure ParserAttempt where
  success : Bool
  parsed_data : Option ParsedData

/-- The result dict of `_use_fallback_llm` (latency not modelled). -/
structure FallbackRes where
  response : Option String
  streaming : Bool
  system_prompt : Option String

/-- The per-turn result dict of `process_user_message` (latency not modelled;
`streaming` is `false` where the source omits the key). -/
structure TurnResult where
  bot_response : Option String
  use_prerecorded : Bool
  audio_filename : Option String
  is_complete : Bool
  state : BookingState
  updated_fields : List String
  mode : String
  streaming : Bool

/-- `_get_last_bot_message`: content of the most recent assistant turn. -/
def last_bot_message (hist : List HistEntry) : Option String :=
  match hist.reverse.find? (fun p => p.1 == "assistant") with
  | some p => p.2
  | none => none

/-- The exact `LLMArgs` of the parser-path generation call in `_try_parser`. -/
def parserCallArgs (st : BookingState) (hist : List HistEntry)
    (user_message : String) : LLMArgs :=
  ⟨build_parser_prompt st (last_bot_message hist) ++ "\n\nUser's message: " ++ user_message,
   "You are a JSON extractor. Return only valid JSON, no explanation.", 200⟩

/-- `_try_parser`: one generation call, JSON decode, truthiness-plus-validation
gate.  Every exception inside the attempt (the call itself, decoding, or
validation) is caught by the `try`/`except` and mapped to a failure result, so
the function is total. -/
def tryParser (st : BookingState) (hist : List HistEntry) (user_message : String)
    (llm : LLMFn) (jl : JsonLoads) : ParserAttempt :=
  match llm (parserCallArgs st hist user_message) with
  | Except.error _ => ⟨false, none⟩
  | Except.ok resp =>
    match parse_llm_json_response jl resp with
    | Except.error _ => ⟨false, none⟩
    | Except.ok none => ⟨false, none⟩
    | Except.ok (some v) =>
      if pyTruthy v && validate_parsed_data v then
        match v with
        | JVal.obj kvs => ⟨true, some kvs⟩
        | _ => ⟨false, none⟩
      else ⟨false, none⟩

/-- The exact `LLMArgs` of the non-streaming fallback call in `_use_fallback_llm`. -/
def fallbackCallArgs (st : BookingState) (user_message : String) : LLMArgs :=
  ⟨user_message, build_fallback_prompt user_message st (get_missing_fields st), 150⟩

/-- `_use_fallback_llm`: streaming mode returns immediately without any call;
otherwise one synchronous generation call whose failure propagates.  The second
component counts generation calls made. -/
def use_fallback_llm (st : BookingState) (user_message : String) (llm : LLMFn)
    (streamAvail : Bool) : Except String FallbackRes × Nat :=
  if streamAvail then
    (Except.ok ⟨none, true, some (build_fallback_prompt user_message st
      (get_missing_fields st))⟩, 0)
  else
    match llm (fallbackCallArgs st user_message) with
    | Except.error e => (Except.error e, 1)
    | Except.ok r => (Except.ok ⟨some r, false, none⟩, 1)

/-- The `name_indicators` of `_opportunistic_parse_from_history`. -/
def nameIndicators : List String := ["i'm ", "my name is ", "this is ", "name's "]

/-- The affirmative keywords of the opportunistic warranty backfill. -/
def oppYesWords : List String := ["yes", "yeah", "yep", "under"]

/-- The negative keywords of the opportunistic warranty backfill. -/
def oppNoWords : List String := ["no", "nope", "not", "expired"]

/-- The name-indicator loop of `_opportunistic_parse_from_history`: for each
indicator present in the lowered message, re-extract and overwrite the
candidate; `split()[0]` on an empty remainder raises `IndexError`. -/
def nameBackfill (orig : List Char) (msgL : List Char) :
    Option JVal → List String → Except String (Option JVal)
  | cur, [] => Except.ok cur
  | cur, ind :: rest =>
    if containsSub ind.toList msgL then
      match pySplit (orig.drop ((pyFind msgL ind.toList).toNat + ind.toList.length)) with
      | [] => Except.error "IndexError"
      | w :: _ =>
        let pn := pyStripSet ['.', ','] w
        if decide (1 < pn.length) then
          nameBackfill orig msgL (some (JVal.str (String.mk (pyTitle pn)))) rest
        else nameBackfill orig msgL cur rest
    else nameBackfill orig msgL cur rest

/-- `_opportunistic_parse_from_history`: keyword backfill of `name` (when the
current name is falsy) and `warranty` (when it `is None`) from the raw
utterance, run after fallback generation. -/
def opportunistic_parse (st : BookingState) (user_message : String) :
    Except String BookingState :=
  let msgL := pyLower user_message.toList
  let afterName : Except String BookingState :=
    if pyTruthyOpt st.name then Except.ok st
    else
      match nameBackfill user_message.toList msgL st.name nameIndicators with
      | Except.error e => Except.error e
      | Except.ok nm => Except.ok {st with name := nm}
  match afterName with
  | Except.error e => Except.error e
  | Except.ok st1 =>
    Except.ok <|
      if st1.warranty.isNone then
        if containsSub "warranty".toList msgL ||
            containsSub "service contract".toList msgL then
          if oppYesWords.any (fun w => containsSub w.toList msgL) then
            {st1 with warranty := some (JVal.bool true)}
          else if oppNoWords.any (fun w => containsSub w.toList msgL) then
            {st1 with warranty := some (JVal.bool false)}
          else st1
        else st1
      else st1

/-- `get_greeting`: the canned instant response (note `is_complete` is the
hard-coded literal `False` and the state snapshot is taken as-is). -/
def get_greeting (st : BookingState) : TurnResult :=
  ⟨some GREETING_MESSAGE, true, some "greeting.wav", false, st, [], "greeting", false⟩

/-- The fallback tail of `process_user_message`: generation (or streaming
setup), opportunistic backfill, history append.  `n0` counts generation calls
already made by the parser attempt. -/
def fallbackTurn (st : BookingState) (hist0 : List HistEntry) (user_message : String)
    (llm : LLMFn) (streamAvail : Bool) (n0 : Nat) :
    Except String (TurnResult × Handler) × Nat :=
  let fb := use_fallback_llm st user_message llm streamAvail
  match fb.1 with
  | Except.error e => (Except.error e, n0 + fb.2)
  | Except.ok fr =>
    match opportunistic_parse st user_message with
    | Except.error e => (Except.error e, n0 + fb.2)
    | Except.ok st2 =>
      (Except.ok (⟨fr.response, false, none, is_complete st2, st2, [], "fallback_llm",
         fr.streaming⟩, ⟨st2, hist0 ++ [("assistant", fr.response)]⟩), n0 + fb.2)

/-- `HybridBookingHandler.process_user_message`: greeting fast path, then the
complete-skip / parser-eligibility classification, the parser attempt with the
deterministic state-machine response on success, and the conversational
fallback otherwise.  The second component counts invocations of the external
generation callable `llm`; the streaming variant is never invoked by the
handler itself (only its availability `streamAvail` is consulted). -/
def process_user_message (h : Handler) (user_message : String) (llm : LLMFn)
    (streamAvail : Bool) (jl : JsonLoads) :
    Except String (TurnResult × Handler) × Nat :=
  let hist0 := h.history ++ [("user", some user_message)]
  if is_greeting user_message then
    let g := get_greeting h.state
    (Except.ok (g, ⟨h.state, hist0 ++ [("assistant", g.bot_response)]⟩), 0)
  else
    let useParserFlag := if is_complete h.state then false else shouldUseParser user_message
    if useParserFlag then
      let pa := tryParser h.state hist0 user_message llm jl
      if pa.success then
        match pa.parsed_data with
        | some pd =>
          match update_state h.state pd with
          | Except.error e => (Except.error e, 1)
          | Except.ok sm =>
            match get_next_response sm.1 true with
            | Except.error e => (Except.error e, 1)
            | Except.ok rm =>
              (Except.ok (⟨rm.text, rm.use_prerecorded, rm.filename, is_complete sm.1,
                 sm.1, sm.2.updated_fields, "parser", false⟩,
                 ⟨sm.1, hist0 ++ [("assistant", rm.text)]⟩), 1)
        | none => (Except.error "AttributeError", 1)
      else fallbackTurn h.state hist0 user_message llm streamAvail 1
    else fallbackTurn h.state hist0 user_message llm streamAvail 0

/-! ## Characterization of `update_state` -/

/-- The value the name block would store, if any. -/
def outName (pd : ParsedData) : Option JVal :=
  match pdGet pd "name" with
  | some v => if pyTruthy v then some v else none
  | none => none

/-- The value the car_reg block would store, if any (or the error it raises). -/
def outCarReg (pd : ParsedData) : Except String (Option JVal) :=
  match pdGet pd "car_reg" with
  | some v => if pyTruthy v then (normalize_car_reg v).map some else Except.ok none
  | none => Except.ok none

/-- The value the car_model block would store, if any. -/
def outCarModel (pd : ParsedData) : Option JVal :=
  match pdGet pd "car_model" with
  | some v => if pyTruthy v then some v else none
  | none => none

/-- The value the mileage block would store, if any (or the error it raises). -/
def outMileage (pd : ParsedData) : Except String (Option JVal) :=
  match pdGet pd "mileage" with
  | some v => (normalize_mileage v).map some
  | none => Except.ok none

/-- The value the warranty block would store, if any. -/
def outWarranty (pd : ParsedData) : Option JVal :=
  match pdGet pd "warranty" with
  | some v => some (JVal.bool (normalize_warranty v))
  | none => none

/-- The value the issue block would store, if any. -/
def outIssue (pd : ParsedData) : Option JVal :=
  match pdGet pd "issue" with
  | some v => if pyTruthy v then some v else none
  | none => none

/-- Overwrite a field with a planned value, keeping the old one when absent. -/
def overwrite (o cur : Option JVal) : Option JVal :=
  match o with
  | some v => some v
  | none => cur

/-- Apply all six planned writes to a state. -/
def applyOuts (st : BookingState) (onm ocr ocm omi owa ois : Option JVal) : BookingState :=
  ⟨overwrite onm st.name, overwrite ocr st.car_reg, overwrite ocm st.car_model,
   overwrite omi st.mileage, overwrite owa st.warranty, overwrite ois st.issue⟩

/-- The `updated_fields` tag contributed by one block. -/
def tagOf (o : Option JVal) (k : String) : List String := if o.isSome then [k] else []

/-- The full `updated_fields` list of one `update_state` call. -/
def tagsOf (onm ocr ocm omi owa ois : Option JVal) : List String :=
  tagOf onm "name" ++ tagOf ocr "car_reg" ++ tagOf ocm "car_model" ++
    tagOf omi "mileage" ++ tagOf owa "warranty" ++ tagOf ois "issue"

theorem step_name_eq (pd : ParsedData) (st : BookingState) (u : List String) :
    step_name pd (st, u) =
      ({st with name := overwrite (outName pd) st.name}, u ++ tagOf (outName pd) "name") := by
  unfold step_name outName tagOf overwrite
  cases h : pdGet pd "name" with
  | none => simp
  | some v =>
    by_cases ht : pyTruthy v <;> simp [ht]

theorem step_car_model_eq (pd : ParsedData) (st : BookingState) (u : List String) :
    step_car_model pd (st, u) =
      ({st with car_model := overwrite (outCarModel pd) st.car_model},
        u ++ tagOf (outCarModel pd) "car_model") := by
  unfold step_car_model outCarModel tagOf overwrite
  cases h : pdGet pd "car_model" with
  | none => simp
  | some v =>
    by_cases ht : pyTruthy v <;> simp [ht]

theorem step_issue_eq (pd : ParsedData) (st : BookingState) (u : List String) :
    step_issue pd (st, u) =
      ({st with issue := overwrite (outIssue pd) st.issue},
        u ++ tagOf (outIssue pd) "issue") := by
  unfold step_issue outIssue tagOf overwrite
  cases h : pdGet pd "issue" with
  | none => simp
  | some v =>
    by_cases ht : pyTruthy v <;> simp [ht]

theorem step_warranty_eq (pd : ParsedData) (st : BookingState) (u : List String) :
    step_warranty pd (st, u) =
      ({st with warranty := overwrite (outWarranty pd) st.warranty},
        u ++ tagOf (outWarranty pd) "warranty") := by
  unfold step_warranty outWarranty tagOf overwrite
  cases h : pdGet pd "warranty" with
  | none => simp
  | some v => simp

theorem step_car_reg_eq (pd : ParsedData) (st : BookingState) (u : List String) :
    step_car_reg pd (st, u) =
      match outCarReg pd with
      | Except.error e => Except.error e
      | Except.ok o =>
        Except.ok ({st with car_reg := overwrite o st.car_reg}, u ++ tagOf o "car_reg") := by
  unfold step_car_reg outCarReg tagOf overwrite
  cases h : pdGet pd "car_reg" with
  | none => simp
  | some v =>
    by_cases ht : pyTruthy v
    · cases hn : normalize_car_reg v <;> simp [ht, hn, Except.map]
    · simp [ht]

theorem step_mileage_eq (pd : ParsedData) (st : BookingState) (u : List String) :
    step_mileage pd (st, u) =
      match outMileage pd with
      | Except.error e => Except.error e
      | Except.ok o =>
        Except.ok ({st with mileage := overwrite o st.mileage}, u ++ tagOf o "mileage") := by
  unfold step_mileage outMileage tagOf overwrite
  cases h : pdGet pd "mileage" with
  | none => simp
  | some v =>
    cases hn : normalize_mileage v <;> simp [hn, Except.map]

/-- `update_state`, characterized: the written values and tags depend only on
the parsed map; the two fallible blocks abort in source order. -/
theorem update_state_char (st : BookingState) (pd : ParsedData) :
    update_state st pd =
      match outCarReg pd with
      | Except.error e => Except.error e
      | Except.ok ocr =>
        match outMileage pd with
        | Except.error e => Except.error e
        | Except.ok omi =>
          Except.ok
            (applyOuts st (outName pd) ocr (outCarModel pd) omi (outWarranty pd) (outIssue pd),
             ⟨tagsOf (outName pd) ocr (outCarModel pd) omi (outWarranty pd) (outIssue pd),
              (tagsOf (outName pd) ocr (outCarModel pd) omi (outWarranty pd) (outIssue pd)).length,
              is_complete
                (applyOuts st (outName pd) ocr (outCarModel pd) omi (outWarranty pd)
                  (outIssue pd))⟩) := by
  simp only [update_state, step_name_eq, step_car_reg_eq, step_car_model_eq,
    step_mileage_eq, step_warranty_eq, step_issue_eq]
  cases hc : outCarReg pd with
  | error e => rfl
  | ok ocr =>
    cases hm : outMileage pd with
    | error e =>
      simp [hc, hm, step_car_model_eq, step_mileage_eq, step_warranty_eq, step_issue_eq]
    | ok omi =>
      simp [hc, hm, step_car_model_eq, step_mileage_eq, step_warranty_eq, step_issue_eq,
        applyOuts, tagsOf, List.append_assoc]

theorem overwrite_idem (o x : Option JVal) : overwrite o (overwrite o x) = overwrite o x := by
  cases o <;> rfl

theorem applyOuts_idem (st : BookingState) (a b c d e f : Option JVal) :
    applyOuts (applyOuts st a b c d e f) a b c d e f = applyOuts st a b c d e f := by
  simp [applyOuts, overwrite_idem]

theorem overwrite_isSome (o : Option JVal) (x : Option JVal) (h : x.isSome = true) :
    (overwrite o x).isSome = true := by
  cases o <;> simp [overwrite, h]

/-- Claim C9: `update_state` is monotonic and idempotent — a successful update
never clears a filled field, an absent (or JSON-null) key leaves the stored
value unchanged, and re-applying the same parsed map returns the same state and
the same metadata (hence the same `get_missing_fields`). -/
theorem C9_update_state_monotone_idempotent (st : BookingState) (pd : ParsedData)
    (st' : BookingState) (m : UpdateMeta)
    (h : update_state st pd = Except.ok (st', m)) :
    update_state st' pd = Except.ok (st', m) ∧
    (st.name.isSome = true → st'.name.isSome = true) ∧
    (st.car_reg.isSome = true → st'.car_reg.isSome = true) ∧
    (st.car_model.isSome = true → st'.car_model.isSome = true) ∧
    (st.mileage.isSome = true → st'.mileage.isSome = true) ∧
    (st.warranty.isSome = true → st'.warranty.isSome = true) ∧
    (st.issue.isSome = true → st'.issue.isSome = true) ∧
    (pdGet pd "name" = none → st'.name = st.name) ∧
    (pdGet pd "car_reg" = none → st'.car_reg = st.car_reg) ∧
    (pdGet pd "car_model" = none → st'.car_model = st.car_model) ∧
    (pdGet pd "mileage" = none → st'.mileage = st.mileage) ∧
    (pdGet pd "warranty" = none → st'.warranty = st.warranty) ∧
    (pdGet pd "issue" = none → st'.issue = st.issue) := by
  rw [update_state_char] at h
  cases hcr : outCarReg pd with
  | error e => rw [hcr] at h; exact absurd h (by simp)
  | ok ocr =>
    cases hm : outMileage pd with
    | error e => rw [hcr, hm] at h; exact absurd h (by simp)
    | ok omi =>
      rw [hcr, hm] at h
      simp only [Except.ok.injEq, Prod.mk.injEq] at h
      obtain ⟨hst, hmeta⟩ := h
      subst hst
      subst hmeta
      refine ⟨?_, ?_, ?_, ?_, ?_, ?_, ?_, ?_, ?_, ?_, ?_, ?_, ?_⟩
      · rw [update_state_char, hcr, hm]
        simp [applyOuts_idem]
      · intro hs; exact overwrite_isSome _ _ hs
      · intro hs; exact overwrite_isSome _ _ hs
      · intro hs; exact overwrite_isSome _ _ hs
      · intro hs; exact overwrite_isSome _ _ hs
      · intro hs; exact overwrite_isSome _ _ hs
      · intro hs; exact overwrite_isSome _ _ hs
      · intro hn
        simp [applyOuts, outName, hn, overwrite]
      · intro hn
        have hout : outCarReg pd = Except.ok none := by simp [outCarReg, hn]
        rw [hcr] at hout
        simp only [Except.ok.injEq] at hout
        subst hout
        simp [applyOuts, overwrite]
      · intro hn
        simp [applyOuts, outCarModel, hn, overwrite]
      · intro hn
        have hout : outMileage pd = Except.ok none := by simp [outMileage, hn]
        rw [hm] at hout
        simp only [Except.ok.injEq] at hout
        subst hout
        simp [applyOuts, overwrite]
      · intro hn
        simp [applyOuts, outWarranty, hn, overwrite]
      · intro hn
        simp [applyOuts, outIssue, hn, overwrite]

/-- Witness for C9 at a concrete state and parsed map. -/
theorem C9_update_state_monotone_idempotent_witness :
    update_state ⟨some (JVal.str "Alex"), none, none, none, none, none⟩
        [("name", JVal.str "Alex")] =
      Except.ok (⟨some (JVal.str "Alex"), none, none, none, none, none⟩,
        ⟨["name"], 1, false⟩) :=
  (C9_update_state_monotone_idempotent emptyBooking [("name", JVal.str "Alex")]
    ⟨some (JVal.str "Alex"), none, none, none, none, none⟩ ⟨["name"], 1, false⟩ rfl).1

/-! ## Completion, missing fields, question sequencing -/

theorem is_complete_false_of_missing (s : BookingState) (f : BookingField)
    (h : fieldVal s f = none) : is_complete s = false := by
  cases f <;> simp [fieldVal] at h <;> simp [is_complete, h, pyTruthyOpt]

/-- Claim C2: `get_missing_fields` lists exactly the `None` fields as a sublist
of the canonical order name, car_reg, car_model, mileage, warranty, issue, and
`get_next_question` asks the canned question of the first missing field; a
state with only `name` filled yields the car-registration question. -/
theorem C2_missing_order_and_next_question (s : BookingState) :
    List.Sublist (get_missing_fields s) fieldList ∧
    (∀ f : BookingField, f ∈ get_missing_fields s ↔ fieldVal s f = none) ∧
    (∀ f : BookingField, (get_missing_fields s).head? = some f →
      get_next_question s = some (QUESTIONS f)) ∧
    get_next_question ⟨some (JVal.str "Alex"), none, none, none, none, none⟩ =
      some "What's your car registration number?" := by
  have hiff : ∀ f : BookingField, f ∈ get_missing_fields s ↔ fieldVal s f = none := by
    intro f
    constructor
    · intro hf
      have := List.of_mem_filter hf
      simpa [Option.isNone_iff_eq_none] using this
    · intro hf
      refine List.mem_filter.mpr ⟨?_, by simp [hf]⟩
      cases f <;> simp [fieldList]
  refine ⟨List.filter_sublist _, hiff, ?_, by rfl⟩
  intro f hf
  cases hms : get_missing_fields s with
  | nil => rw [hms] at hf; exact absurd hf (by simp)
  | cons a t =>
    rw [hms] at hf
    simp only [List.head?_cons, Option.some.injEq] at hf
    subst hf
    have hmem : a ∈ get_missing_fields s := by
      rw [hms]; exact List.mem_cons_self _ _
    have hnone : fieldVal s a = none := (hiff a).mp hmem
    have hcomp : is_complete s = false := is_complete_false_of_missing s a hnone
    simp [get_next_question, hcomp, hms]

/-- Witness for C2: with only the name filled, the next question is the
registration question. -/
theorem C2_missing_order_and_next_question_witness :
    get_next_question ⟨some (JVal.str "Alex"), none, none, none, none, none⟩ =
      some "What's your car registration number?" :=
  (C2_missing_order_and_next_question
    ⟨some (JVal.str "Alex"), none, none, none, none, none⟩).2.2.1
    BookingField.car_reg rfl

/-- A state whose six fields are all non-null, with `name` the empty string. -/
def exEmptyStr : BookingState :=
  ⟨some (JVal.str ""), some (JVal.str "AB12CDE"), some (JVal.str "Golf"),
   some (JVal.int 50000), some (JVal.bool false), some (JVal.str "brakes")⟩

/-- Counterexample to claim C3 as stated: `exEmptyStr` has all six fields
non-null, yet `is_complete` is `false`, because the source tests Python
truthiness (not only nullness) on the four string fields. -/
theorem C3_counterexample :
    (exEmptyStr.name.isSome && exEmptyStr.car_reg.isSome && exEmptyStr.car_model.isSome &&
      exEmptyStr.mileage.isSome && exEmptyStr.warranty.isSome &&
      exEmptyStr.issue.isSome) = true ∧
    is_complete exEmptyStr = false := ⟨rfl, rfl⟩

/-- Claim C3 (amended): `is_complete` is true iff `name`, `car_reg`, `car_model`
and `issue` are truthy (non-null and non-empty) while `mileage` and `warranty`
are non-null; in particular a fully-filled state with non-empty strings and
`warranty = false` is complete, and a state missing only `issue` is not. -/
theorem C3_is_complete_characterization (s : BookingState) :
    (is_complete s = true ↔
      (pyTruthyOpt s.name = true ∧ pyTruthyOpt s.car_reg = true ∧
       pyTruthyOpt s.car_model = true ∧ s.mileage.isSome = true ∧
       s.warranty.isSome = true ∧ pyTruthyOpt s.issue = true)) ∧
    (∀ n r mo i : String, ∀ mi : Int, n ≠ "" → r ≠ "" → mo ≠ "" → i ≠ "" →
      is_complete ⟨some (JVal.str n), some (JVal.str r), some (JVal.str mo),
        some (JVal.int mi), some (JVal.bool false), some (JVal.str i)⟩ = true) ∧
    (s.issue = none → is_complete s = false) := by
  refine ⟨?_, ?_, ?_⟩
  · constructor
    · intro h
      simp only [is_complete, Bool.and_eq_true] at h
      tauto
    · intro h
      simp only [is_complete, Bool.and_eq_true]
      tauto
  · intro n r mo i mi hn hr hmo hi
    have hne : ∀ t : String, t ≠ "" → t.isEmpty = false := by
      intro t ht
      cases h : t.isEmpty
      · rfl
      · exact absurd (by simpa [String.isEmpty_iff] using h) ht
    simp [is_complete, pyTruthyOpt, pyTruthy, hne n hn, hne r hr, hne mo hmo, hne i hi]
  · intro h
    exact is_complete_false_of_missing s BookingField.issue h

/-- Witness for C3 (amended): a concrete fully-filled state with
`warranty = false` is complete. -/
theorem C3_is_complete_characterization_witness :
    is_complete ⟨some (JVal.str "Alex"), some (JVal.str "AB12CDE"),
      some (JVal.str "Golf"), some (JVal.int 50000), some (JVal.bool false),
      some (JVal.str "MOT")⟩ = true :=
  (C3_is_complete_characterization emptyBooking).2.1 "Alex" "AB12CDE" "Golf" "MOT" 50000
    (by decide) (by decide) (by decide) (by decide)

/-- Counterexample to claim C4 as stated: on `exEmptyStr` the two views of
"filled" disagree — `get_missing_fields` is empty but `is_complete` is false. -/
theorem C4_counterexample :
    get_missing_fields exEmptyStr = [] ∧ is_complete exEmptyStr = false := ⟨rfl, rfl⟩

/-- Claim C4 (amended): `is_complete = true` implies `get_missing_fields = []`;
the converse holds provided every stored value of the four truthiness-checked
fields (`name`, `car_reg`, `car_model`, `issue`) is truthy — it fails on states
holding empty strings. -/
theorem C4_complete_iff_no_missing (s : BookingState) :
    (is_complete s = true → get_missing_fields s = []) ∧
    ((get_missing_fields s = [] ∧
      (∀ v, s.name = some v → pyTruthy v = true) ∧
      (∀ v, s.car_reg = some v → pyTruthy v = true) ∧
      (∀ v, s.car_model = some v → pyTruthy v = true) ∧
      (∀ v, s.issue = some v → pyTruthy v = true)) → is_complete s = true) := by
  obtain ⟨f1, f2, f3, f4, f5, f6⟩ := s
  cases f1 <;> cases f2 <;> cases f3 <;> cases f4 <;> cases f5 <;> cases f6 <;>
    simp_all [is_complete, get_missing_fields, fieldList, fieldVal, pyTruthyOpt]

/-- Witness for C4 (amended) at a concrete complete state. -/
theorem C4_complete_iff_no_missing_witness :
    get_missing_fields ⟨some (JVal.str "Alex"), some (JVal.str "AB12CDE"),
      some (JVal.str "Golf"), some (JVal.int 50000), some (JVal.bool false),
      some (JVal.str "MOT")⟩ = [] :=
  (C4_complete_iff_no_missing ⟨some (JVal.str "Alex"), some (JVal.str "AB12CDE"),
    some (JVal.str "Golf"), some (JVal.int 50000), some (JVal.bool false),
    some (JVal.str "MOT")⟩).1 rfl

/-! ## Mileage normalization on digit strings -/

/-- The ten decimal digit characters. -/
def digitChars : List Char := ['0', '1', '2', '3', '4', '5', '6', '7', '8', '9']

theorem digit_toLower (c : Char) (h : c ∈ digitChars) : c.toLower = c := by
  fin_cases h <;> rfl

theorem digit_isDigit (c : Char) (h : c ∈ digitChars) : c.isDigit = true := by
  fin_cases h <;> rfl

theorem digit_not_space (c : Char) (h : c ∈ digitChars) : isSpaceC c = false := by
  fin_cases h <;> rfl

theorem digit_ne_m (c : Char) (h : c ∈ digitChars) : c ≠ 'm' := by
  fin_cases h <;> decide

theorem digit_ne_comma (c : Char) (h : c ∈ digitChars) : c ≠ ',' := by
  fin_cases h <;> decide

theorem digit_ne_k (c : Char) (h : c ∈ digitChars) : c ≠ 'k' := by
  fin_cases h <;> decide

theorem pyLower_fix (s : List Char) (h : ∀ c ∈ s, c.toLower = c) : pyLower s = s := by
  induction s with
  | nil => rfl
  | cons c cs ih =>
    simp only [pyLower, List.map_cons]
    rw [h c (by simp)]
    have := ih (fun d hd => h d (by simp [hd]))
    simpa [pyLower] using this

theorem findSub_none_of_head_notin (p : Char) (ps s : List Char)
    (h : ∀ c ∈ s, c ≠ p) : findSub (p :: ps) s = none := by
  induction s with
  | nil => rfl
  | cons c cs ih =>
    have hpc : (p == c) = false := by
      simp only [beq_eq_false_iff_ne]
      exact fun e => h c (by simp) e.symm
    simp only [findSub, listStarts, hpc, Bool.false_and, if_false]
    rw [ih (fun d hd => h d (by simp [hd]))]
    rfl

theorem pyReplaceGo_id (pat rep s : List Char) (h : findSub pat s = none) :
    ∀ fuel, pyReplaceGo pat rep fuel s = s := by
  induction s with
  | nil => intro fuel; cases fuel <;> rfl
  | cons c cs ih =>
    intro fuel
    by_cases hls : listStarts pat (c :: cs) = true
    · rw [findSub, if_pos hls] at h
      cases h
    · have hrest : findSub pat cs = none := by
        rw [findSub, if_neg hls] at h
        exact Option.map_eq_none'.mp h
      cases fuel with
      | zero => rfl
      | succ f =>
        simp only [pyReplaceGo, Bool.eq_false_iff.mpr hls, Bool.and_false]
        simp [ih hrest f]

theorem pyReplace_id (s pat rep : List Char) (h : findSub pat s = none) :
    pyReplace s pat rep = s := pyReplaceGo_id pat rep s h s.length

theorem pyReplaceGo_strip_k (s : List Char) (h : ∀ c ∈ s, c ≠ 'k') :
    ∀ fuel, s.length + 1 ≤ fuel → pyReplaceGo ['k'] [] fuel (s ++ ['k']) = s := by
  induction s with
  | nil =>
    intro fuel hf
    cases fuel with
    | zero => omega
    | succ f =>
      show pyReplaceGo ['k'] [] (f + 1) ['k'] = []
      have h1 : pyReplaceGo ['k'] [] (f + 1) ['k'] = [] ++ pyReplaceGo ['k'] [] f [] := by
        simp [pyReplaceGo, listStarts]
      rw [h1]
      cases f <;> rfl
  | cons c cs ih =>
    intro fuel hf
    cases fuel with
    | zero => omega
    | succ f =>
      have hck : ('k' == c) = false := by
        simp only [beq_eq_false_iff_ne]
        exact fun e => h c (by simp) e.symm
      have hih := ih (fun d hd => h d (by simp [hd])) f (by simp at hf; omega)
      simp only [List.cons_append, pyReplaceGo, listStarts, hck, Bool.false_and,
        Bool.and_false]
      simp [hih]

theorem listStarts_append (pat rest : List Char) : listStarts pat (pat ++ rest) = true := by
  induction pat with
  | nil => rfl
  | cons p ps ih => simp [listStarts, ih]

theorem containsSub_suffix (pat s : List Char) (hpat : pat ≠ []) :
    containsSub pat (s ++ pat) = true := by
  induction s with
  | nil =>
    have : listStarts pat pat = true := by
      have := listStarts_append pat []
      simpa using this
    simp only [containsSub, List.nil_append]
    cases pat with
    | nil => exact absurd rfl hpat
    | cons p ps =>
      simp [findSub, this]
  | cons c cs ih =>
    have hf : containsSub pat ((c :: cs) ++ pat) =
        (if listStarts pat (c :: (cs ++ pat)) = true then some 0
         else (findSub pat (cs ++ pat)).map (fun n => n + 1)).isSome := rfl
    rw [hf]
    by_cases hls : listStarts pat (c :: (cs ++ pat)) = true
    · simp [hls]
    · rw [if_neg hls]
      simp only [containsSub] at ih
      cases hfs : findSub pat (cs ++ pat) with
      | none => rw [hfs] at ih; simp at ih
      | some i => simp

theorem dropWhile_head_false (p : Char → Bool) (s : List Char)
    (h : ∀ c ∈ s, p c = false) : s.dropWhile p = s := by
  cases s with
  | nil => rfl
  | cons c cs => simp [List.dropWhile_cons, h c (by simp)]

theorem pyStrip_id (s : List Char) (h : ∀ c ∈ s, isSpaceC c = false) : pyStrip s = s := by
  unfold pyStrip
  rw [dropWhile_head_false _ _ h]
  rw [dropWhile_head_false _ _ (fun c hc => h c (List.mem_reverse.mp hc))]
  exact List.reverse_reverse s

theorem takeWhile_all_true (p : Char → Bool) (s : List Char)
    (h : ∀ c ∈ s, p c = true) : s.takeWhile p = s := by
  induction s with
  | nil => rfl
  | cons c cs ih =>
    simp [List.takeWhile_cons, h c (by simp), ih (fun d hd => h d (by simp [hd]))]

theorem dropWhile_all_true (p : Char → Bool) (s : List Char)
    (h : ∀ c ∈ s, p c = true) : s.dropWhile p = [] := by
  induction s with
  | nil => rfl
  | cons c cs ih =>
    simp [List.dropWhile_cons, h c (by simp), ih (fun d hd => h d (by simp [hd]))]

theorem pyFloatParse_digits (s : List Char) (hne : s ≠ [])
    (h : ∀ c ∈ s, c ∈ digitChars) :
    pyFloatParse s = some ⟨1, digitsVal s, 0⟩ := by
  have hsp : pyStrip s = s := pyStrip_id s (fun c hc => digit_not_space c (h c hc))
  have htw : s.takeWhile Char.isDigit = s :=
    takeWhile_all_true _ s (fun c hc => digit_isDigit c (h c hc))
  have hdw : s.dropWhile Char.isDigit = [] :=
    dropWhile_all_true _ s (fun c hc => digit_isDigit c (h c hc))
  cases s with
  | nil => exact absurd rfl hne
  | cons c cs =>
    have hc := h c (by simp)
    fin_cases hc <;>
      simp [pyFloatParse, hsp, htw, hdw, List.append_nil]

theorem normalize_mileage_digits (s : List Char) (hne : s ≠ [])
    (h : ∀ c ∈ s, c ∈ digitChars) :
    normalize_mileage (JVal.str (String.mk s)) =
      Except.ok (JVal.int ((digitsVal s : Nat) : Int)) := by
  have hlow : pyLower s = s := pyLower_fix s (fun c hc => digit_toLower c (h c hc))
  have hmiles : pyReplace s "miles".toList [] = s :=
    pyReplace_id s _ []
      (findSub_none_of_head_notin 'm' ['i', 'l', 'e', 's'] s
        (fun c hc => digit_ne_m c (h c hc)))
  have hcomma : pyReplace s [','] [] = s :=
    pyReplace_id s _ []
      (findSub_none_of_head_notin ',' [] s (fun c hc => digit_ne_comma c (h c hc)))
  have hstrip : pyStrip s = s := pyStrip_id s (fun c hc => digit_not_space c (h c hc))
  have hfk : findSub ['k'] s = none :=
    findSub_none_of_head_notin 'k' [] s (fun c hc => digit_ne_k c (h c hc))
  have hparse := pyFloatParse_digits s hne h
  simp only [normalize_mileage]
  rw [show (String.mk s).toList = s from rfl]
  rw [hlow, hmiles, hcomma, hstrip]
  rw [show containsSub ['k'] s = false from by simp [containsSub, hfk]]
  simp [hparse, pyFloatTrunc]

theorem normalize_mileage_k_shorthand (s : List Char) (hne : s ≠ [])
    (h : ∀ c ∈ s, c ∈ digitChars) :
    normalize_mileage (JVal.str (String.mk (s ++ ['k']))) =
      Except.ok (JVal.int ((digitsVal s * 1000 : Nat) : Int)) := by
  have hall : ∀ c ∈ s ++ ['k'], c ∈ digitChars ∨ c = 'k' := by
    intro c hc
    rcases List.mem_append.mp hc with hc | hc
    · exact Or.inl (h c hc)
    · simp at hc; exact Or.inr hc
  have hlow : pyLower (s ++ ['k']) = s ++ ['k'] := by
    refine pyLower_fix _ (fun c hc => ?_)
    rcases hall c hc with hd | hk
    · exact digit_toLower c hd
    · subst hk; rfl
  have hmiles : pyReplace (s ++ ['k']) "miles".toList [] = s ++ ['k'] := by
    refine pyReplace_id _ _ []
      (findSub_none_of_head_notin 'm' ['i', 'l', 'e', 's'] _ (fun c hc => ?_))
    rcases hall c hc with hd | hk
    · exact digit_ne_m c hd
    · subst hk; decide
  have hcomma : pyReplace (s ++ ['k']) [','] [] = s ++ ['k'] := by
    refine pyReplace_id _ _ []
      (findSub_none_of_head_notin ',' [] _ (fun c hc => ?_))
    rcases hall c hc with hd | hk
    · exact digit_ne_comma c hd
    · subst hk; decide
  have hstrip : pyStrip (s ++ ['k']) = s ++ ['k'] := by
    refine pyStrip_id _ (fun c hc => ?_)
    rcases hall c hc with hd | hk
    · exact digit_not_space c hd
    · subst hk; rfl
  have hck : containsSub ['k'] (s ++ ['k']) = true := containsSub_suffix ['k'] s (by decide)
  have hdrop : pyReplace (s ++ ['k']) ['k'] [] = s := by
    unfold pyReplace
    rw [List.length_append]
    exact pyReplaceGo_strip_k s (fun c hc => digit_ne_k c (h c hc)) (s.length + 1)
      (by simp)
  have hparse := pyFloatParse_digits s hne h
  simp only [normalize_mileage]
  rw [show (String.mk (s ++ ['k'])).toList = s ++ ['k'] from rfl]
  rw [hlow, hmiles, hcomma, hstrip, hck]
  simp [hdrop, hparse, pyFloatTruncMul1000]

/-- Claim C5: `_normalize_mileage` passes integers through unchanged, strips
`"miles"` and commas from strings, maps the `<digits>k` shorthand to
`digits * 1000`, and otherwise parses the residue as a float and truncates;
in particular `"120k"` gives 120000, `"45,000 miles"` gives 45000 and the
integer 5000 is returned unchanged. -/
theorem C5_normalize_mileage_behaviour :
    (∀ n : Int, normalize_mileage (JVal.int n) = Except.ok (JVal.int n)) ∧
    (∀ s : List Char, s ≠ [] → (∀ c ∈ s, c ∈ digitChars) →
      normalize_mileage (JVal.str (String.mk s)) =
        Except.ok (JVal.int ((digitsVal s : Nat) : Int))) ∧
    (∀ s : List Char, s ≠ [] → (∀ c ∈ s, c ∈ digitChars) →
      normalize_mileage (JVal.str (String.mk (s ++ ['k']))) =
        Except.ok (JVal.int ((digitsVal s * 1000 : Nat) : Int))) ∧
    normalize_mileage (JVal.str "120k") = Except.ok (JVal.int 120000) ∧
    normalize_mileage (JVal.str "45,000 miles") = Except.ok (JVal.int 45000) ∧
    normalize_mileage (JVal.int 5000) = Except.ok (JVal.int 5000) :=
  ⟨fun _ => rfl, normalize_mileage_digits, normalize_mileage_k_shorthand,
   rfl, rfl, rfl⟩

/-- Witness for C5: the digit-string and `k`-shorthand clauses evaluated at
concrete inputs. -/
theorem C5_normalize_mileage_behaviour_witness :
    normalize_mileage (JVal.str (String.mk "500".toList)) =
      Except.ok (JVal.int ((digitsVal "500".toList : Nat) : Int)) ∧
    normalize_mileage (JVal.str (String.mk ("72".toList ++ ['k']))) =
      Except.ok (JVal.int ((digitsVal "72".toList * 1000 : Nat) : Int)) :=
  ⟨C5_normalize_mileage_behaviour.2.1 "500".toList (by decide) (by decide),
   C5_normalize_mileage_behaviour.2.2.1 "72".toList (by decide) (by decide)⟩

/-! ## Normalization failures at the update boundary -/

/-- A generation stub returning a fixed reply. -/
def c6llm : LLMFn := fun _ => Except.ok "resp"

/-- A decode stub returning a map whose mileage is the non-numeric string. -/
def c6jl : JsonLoads := fun _ => Except.ok (JVal.obj [("mileage", JVal.str "abc")])

/-- Counterexample to claim C6 as stated: a non-numeric mileage raises
`ValueError` inside `update_state` (there is no catch at the update boundary)
and the exception escapes `process_user_message` to the caller instead of the
turn proceeding. -/
theorem C6_counterexample :
    update_state emptyBooking [("mileage", JVal.str "abc")] = Except.error "ValueError" ∧
    process_user_message ⟨emptyBooking, []⟩ "the mileage update" c6llm false c6jl =
      (Except.error "ValueError", 1) := ⟨rfl, rfl⟩

/-- Claim C6 (amended): a malformed mileage value makes `_normalize_mileage`
raise, the error is NOT caught at the update boundary — `update_state`
propagates it, and it escapes `process_user_message` on the parser path. -/
theorem C6_normalization_error_propagates (st : BookingState) (s e : String)
    (h : normalize_mileage (JVal.str s) = Except.error e) :
    update_state st [("mileage", JVal.str s)] = Except.error e ∧
    (is_complete st = false →
      process_user_message ⟨st, []⟩ "the mileage update" (fun _ => Except.ok "resp") false
        (fun _ => Except.ok (JVal.obj [("mileage", JVal.str s)])) =
      (Except.error e, 1)) := by
  have hocr : outCarReg [("mileage", JVal.str s)] = Except.ok none := rfl
  have homi : outMileage [("mileage", JVal.str s)] = Except.error e := by
    have hget : pdGet [("mileage", JVal.str s)] "mileage" = some (JVal.str s) := rfl
    simp [outMileage, hget, h, Except.map]
  have hupd : update_state st [("mileage", JVal.str s)] = Except.error e := by
    rw [update_state_char, hocr, homi]
  refine ⟨hupd, ?_⟩
  intro hic
  have hg : is_greeting "the mileage update" = false := rfl
  have hsp : shouldUseParser "the mileage update" = true := rfl
  have htp : tryParser st [("user", some "the mileage update")] "the mileage update"
      (fun _ => Except.ok "resp")
      (fun _ => Except.ok (JVal.obj [("mileage", JVal.str s)])) =
      ⟨true, some [("mileage", JVal.str s)]⟩ := rfl
  simp [process_user_message, hg, hic, hsp, htp, hupd]

/-- Witness for C6 (amended) at a concrete malformed mileage string. -/
theorem C6_normalization_error_propagates_witness :
    update_state emptyBooking [("mileage", JVal.str "oops")] = Except.error "ValueError" :=
  (C6_normalization_error_propagates emptyBooking "oops" "ValueError" rfl).1

/-! ## Opportunistic keyword backfill -/

/-- A state whose `name` is filled (non-null) but falsy: the empty string. -/
def opSt : BookingState := ⟨some (JVal.str ""), none, none, none, none, none⟩

/-- Counterexample to claim C10 as stated: on a state whose `name` is already
filled (with the non-null empty string), the backfill OVERWRITES it, because
the source guards with truthiness (`if not state.name`), not with `is None`. -/
theorem C10_counterexample :
    opSt.name.isSome = true ∧
    opportunistic_parse opSt "i'm Bob" =
      Except.ok ⟨some (JVal.str "Bob"), none, none, none, none, none⟩ := ⟨rfl, rfl⟩

/-- Claim C10 (amended): the backfill never touches `car_reg`, `car_model`,
`mileage` or `issue`; it writes `name` only when the current name is falsy
(`None` or empty), `warranty` only when it `is None`, and any warranty it
writes is a boolean. -/
theorem C10_opportunistic_writes (st : BookingState) (msg : String) (st' : BookingState)
    (h : opportunistic_parse st msg = Except.ok st') :
    st'.car_reg = st.car_reg ∧ st'.car_model = st.car_model ∧
    st'.mileage = st.mileage ∧ st'.issue = st.issue ∧
    (pyTruthyOpt st.name = true → st'.name = st.name) ∧
    (st.warranty.isSome = true → st'.warranty = st.warranty) ∧
    (st'.warranty ≠ st.warranty →
      st.warranty = none ∧ (st'.warranty = some (JVal.bool true) ∨
        st'.warranty = some (JVal.bool false))) := by
  unfold opportunistic_parse at h
  by_cases ht : pyTruthyOpt st.name = true
  · simp only [ht, if_true, Except.ok.injEq] at h
    subst h
    refine ⟨?_, ?_, ?_, ?_, ?_, ?_, ?_⟩ <;>
      split_ifs <;> simp_all [Option.isNone_iff_eq_none]
  · simp only [ht, if_false, Bool.false_eq_true] at h
    cases hnb : nameBackfill msg.toList (pyLower msg.toList) st.name nameIndicators with
    | error e => rw [hnb] at h; cases h
    | ok nm =>
      rw [hnb] at h
      simp only [Except.ok.injEq] at h
      subst h
      refine ⟨?_, ?_, ?_, ?_, ?_, ?_, ?_⟩ <;>
        split_ifs <;> simp_all [Option.isNone_iff_eq_none]

/-- Witness for C10 (amended): a filled warranty survives a backfill turn. -/
theorem C10_opportunistic_writes_witness :
    (⟨some (JVal.str "Bob"), none, none, none, some (JVal.bool true), none⟩ :
      BookingState).warranty =
    (⟨none, none, none, none, some (JVal.bool true), none⟩ : BookingState).warranty :=
  (C10_opportunistic_writes ⟨none, none, none, none, some (JVal.bool true), none⟩
    "i'm Bob" ⟨some (JVal.str "Bob"), none, none, none, some (JVal.bool true), none⟩
    rfl).2.2.2.2.2.1 rfl

/-! ## Greeting fast path -/

/-- Claim C1: an utterance that (lowered and stripped) starts with a greeting
opener, has fewer than 8 words and contains no booking-info indicator is
answered instantly with the canned greeting (`use_prerecorded = true`,
`mode = "greeting"`), with zero invocations of the generation callable and a
result independent of both supplied callables and of streaming availability. -/
theorem C1_greeting_fast_path (h : Handler) (msg : String) (llm llm' : LLMFn)
    (b b' : Bool) (jl jl' : JsonLoads)
    (h1 : greetingsList.any
      (fun g => listStarts g.toList (pyStrip (pyLower msg.toList))) = true)
    (h2 : (pySplit (pyStrip (pyLower msg.toList))).length < 8)
    (h3 : infoIndicators.any
      (fun i => containsSub i.toList (pyStrip (pyLower msg.toList))) = false) :
    process_user_message h msg llm b jl =
      (Except.ok (get_greeting h.state,
        ⟨h.state, h.history ++
          [("user", some msg), ("assistant", some GREETING_MESSAGE)]⟩), 0) ∧
    (get_greeting h.state).bot_response = some GREETING_MESSAGE ∧
    (get_greeting h.state).use_prerecorded = true ∧
    (get_greeting h.state).mode = "greeting" ∧
    process_user_message h msg llm b jl = process_user_message h msg llm' b' jl' := by
  have hg : is_greeting msg = true := by
    simp only [is_greeting]
    simp only [List.any_eq_true] at h1
    simp only [List.any_eq_false] at h3
    simp
    constructor
    · exact ⟨by simpa using h1, h2⟩
    · intro x hx
      simpa using h3 x hx
  have hpm : ∀ (l : LLMFn) (bb : Bool) (j : JsonLoads),
      process_user_message h msg l bb j =
        (Except.ok (get_greeting h.state,
          ⟨h.state, h.history ++
            [("user", some msg), ("assistant", some GREETING_MESSAGE)]⟩), 0) := by
    intro l bb j
    simp [process_user_message, hg, get_greeting]
  refine ⟨hpm llm b jl, rfl, rfl, rfl, ?_⟩
  rw [hpm llm b jl, hpm llm' b' jl']

/-- Witness for C1 on the utterance "Hi there", with a generation function and
a JSON decoder that always fail: the canned greeting is still produced and the
generation function is called zero times. -/
theorem C1_greeting_fast_path_witness :
    process_user_message ⟨emptyBooking, []⟩ "Hi there"
      (fun _ => Except.error "down") false (fun _ => Except.error ()) =
    (Except.ok (get_greeting emptyBooking,
      ⟨emptyBooking, [("user", some "Hi there"),
        ("assistant", some GREETING_MESSAGE)]⟩), 0) :=
  (C1_greeting_fast_path ⟨emptyBooking, []⟩ "Hi there"
    (fun _ => Except.error "down") (fun _ => Except.error "down") false false
    (fun _ => Except.error ()) (fun _ => Except.error ())
    (by decide) (by decide) (by decide)).1

/-! ## Parser validation and failure containment -/

/-- A decoded map whose six canonical keys are all null but which carries an
extra non-null entry. -/
def c7kvs : ParsedData :=
  [("name", JVal.null), ("car_reg", JVal.null), ("car_model", JVal.null),
   ("mileage", JVal.null), ("warranty", JVal.null), ("issue", JVal.null),
   ("notes", JVal.str "call me")]

/-- Counterexample to claim C7 as stated: `c7kvs` has no non-null value among
the six canonical keys, yet the acceptance gate of `_try_parser`
(truthiness plus `validate_parsed_data`) accepts it, because validation scans
all values of the dict, not just the six canonical keys. -/
theorem C7_counterexample :
    (pyTruthy (JVal.obj c7kvs) && validate_parsed_data (JVal.obj c7kvs)) = true ∧
    (["name", "car_reg", "car_model", "mileage", "warranty", "issue"].all
      (fun k => (pdGet c7kvs k).isNone)) = true := ⟨rfl, rfl⟩

/-- Claim C7 (amended): a decoded map is accepted iff it contains at least one
non-null value among all its entries (whatever their keys); in particular a map
whose values are all null is a parse failure, so `_try_parser` reports failure
and the turn falls through to the fallback path. -/
theorem C7_validation_accepts_iff_nonnull (kvs : List (String × JVal)) :
    ((pyTruthy (JVal.obj kvs) && validate_parsed_data (JVal.obj kvs)) = true ↔
      ∃ p ∈ kvs, p.2.isNull = false) ∧
    (∀ (st : BookingState) (hist : List HistEntry) (msg r : String) (llm : LLMFn)
      (jl : JsonLoads),
      llm (parserCallArgs st hist msg) = Except.ok r →
      parse_llm_json_response jl r = Except.ok (some (JVal.obj kvs)) →
      (∀ p ∈ kvs, p.2.isNull = true) →
      tryParser st hist msg llm jl = ⟨false, none⟩) := by
  constructor
  · constructor
    · intro hacc
      simp only [Bool.and_eq_true, pyTruthy, validate_parsed_data,
        decide_eq_true_eq] at hacc
      obtain ⟨-, hlen⟩ := hacc
      obtain ⟨p, hp⟩ := List.exists_mem_of_length_pos hlen
      obtain ⟨hmem, hpr⟩ := List.mem_filter.mp hp
      refine ⟨p, hmem, ?_⟩
      simpa using hpr
    · rintro ⟨p, hp, hnn⟩
      have hfil : p ∈ kvs.filter (fun q => !q.2.isNull) :=
        List.mem_filter.mpr ⟨hp, by simp [hnn]⟩
      have hne : kvs ≠ [] := List.ne_nil_of_mem hp
      simp only [Bool.and_eq_true, pyTruthy, validate_parsed_data, decide_eq_true_eq]
      refine ⟨by simpa using hne, ?_⟩
      exact List.length_pos.mpr (List.ne_nil_of_mem hfil)
  · intro st hist msg r llm jl hllm hparse hnull
    have hval : validate_parsed_data (JVal.obj kvs) = false := by
      have hfil : kvs.filter (fun q => !q.2.isNull) = [] := by
        refine List.filter_eq_nil_iff.mpr (fun a ha => ?_)
        simp [hnull a ha]
      simp [validate_parsed_data, hfil]
    simp [tryParser, hllm, hparse, hval]

/-- Witness for C7: an all-null decoded map makes `_try_parser` fail. -/
theorem C7_validation_accepts_iff_nonnull_witness :
    tryParser emptyBooking [] "ok then" (fun _ => Except.ok "x")
      (fun _ => Except.ok (JVal.obj [("name", JVal.null)])) = ⟨false, none⟩ :=
  (C7_validation_accepts_iff_nonnull [("name", JVal.null)]).2 emptyBooking [] "ok then"
    "x" (fun _ => Except.ok "x") (fun _ => Except.ok (JVal.obj [("name", JVal.null)]))
    rfl rfl (by decide)

/-- The fallback outcome of a turn whose parser attempt failed. -/
theorem process_fallback_of_parser_failure (st : BookingState) (hist : List HistEntry)
    (msg : String) (llm : LLMFn) (jl : JsonLoads) (resp : String) (st2 : BookingState)
    (hg : is_greeting msg = false) (hc : is_complete st = false)
    (hsp : shouldUseParser msg = true)
    (htp : tryParser st (hist ++ [("user", some msg)]) msg llm jl = ⟨false, none⟩)
    (hfb : llm (fallbackCallArgs st msg) = Except.ok resp)
    (hop : opportunistic_parse st msg = Except.ok st2) :
    process_user_message ⟨st, hist⟩ msg llm false jl =
      (Except.ok (⟨some resp, false, none, is_complete st2, st2, [], "fallback_llm",
        false⟩, ⟨st2, hist ++ [("user", some msg), ("assistant", some resp)]⟩), 2) := by
  simp [process_user_message, hg, hc, hsp, htp, fallbackTurn, use_fallback_llm, hfb, hop]

/-- Claim C8: every exception arising inside the parser attempt — the external
generation call failing, JSON decoding failing, or validation rejecting — is
caught by `_try_parser`, which reports plain failure; the turn then takes the
fallback generation path, and no such exception escapes `process_user_message`. -/
theorem C8_parser_exceptions_contained (st : BookingState) (hist : List HistEntry)
    (msg : String) (llm : LLMFn) (jl : JsonLoads)
    (hg : is_greeting msg = false) (hc : is_complete st = false)
    (hsp : shouldUseParser msg = true) :
    (∀ e, llm (parserCallArgs st (hist ++ [("user", some msg)]) msg) = Except.error e →
      tryParser st (hist ++ [("user", some msg)]) msg llm jl = ⟨false, none⟩) ∧
    (∀ r, llm (parserCallArgs st (hist ++ [("user", some msg)]) msg) = Except.ok r →
      parse_llm_json_response jl r = Except.error () →
      tryParser st (hist ++ [("user", some msg)]) msg llm jl = ⟨false, none⟩) ∧
    (∀ r v, llm (parserCallArgs st (hist ++ [("user", some msg)]) msg) = Except.ok r →
      parse_llm_json_response jl r = Except.ok (some v) →
      (pyTruthy v && validate_parsed_data v) = false →
      tryParser st (hist ++ [("user", some msg)]) msg llm jl = ⟨false, none⟩) ∧
    (tryParser st (hist ++ [("user", some msg)]) msg llm jl = ⟨false, none⟩ →
      ∀ resp st2, llm (fallbackCallArgs st msg) = Except.ok resp →
        opportunistic_parse st msg = Except.ok st2 →
        process_user_message ⟨st, hist⟩ msg llm false jl =
          (Except.ok (⟨some resp, false, none, is_complete st2, st2, [], "fallback_llm",
            false⟩, ⟨st2, hist ++ [("user", some msg), ("assistant", some resp)]⟩), 2)) := by
  refine ⟨?_, ?_, ?_, ?_⟩
  · intro e he
    unfold tryParser
    rw [he]
  · intro r hr hp
    simp [tryParser, hr, hp]
  · intro r v hr hp hval
    simp [tryParser, hr, hp, hval]
  · intro htp resp st2 hfb hop
    exact process_fallback_of_parser_failure st hist msg llm jl resp st2 hg hc hsp htp
      hfb hop

/-- A generation stub that fails on the parser call (token budget 200) and
succeeds on the fallback call (token budget 150). -/
def c8llm : LLMFn :=
  fun a => if a.max_tokens == 200 then Except.error "boom" else Except.ok "Okay!"

/-- A decode stub that always raises. -/
def c8jl : JsonLoads := fun _ => Except.error ()

/-- Witness for C8: with a failing parser call the whole turn still returns the
fallback response, calling the generation function twice and raising nothing. -/
theorem C8_parser_exceptions_contained_witness :
    process_user_message ⟨emptyBooking, []⟩ "my name bob" c8llm false c8jl =
      (Except.ok (⟨some "Okay!", false, none, false, emptyBooking, [], "fallback_llm",
        false⟩, ⟨emptyBooking, [("user", some "my name bob"),
          ("assistant", some "Okay!")]⟩), 2) :=
  (C8_parser_exceptions_contained emptyBooking [] "my name bob" c8llm c8jl
    rfl rfl rfl).2.2.2
    ((C8_parser_exceptions_contained emptyBooking [] "my name bob" c8llm c8jl
      rfl rfl rfl).1 "boom" rfl)
    "Okay!" emptyBooking rfl rfl
